import Mathlib

set_option maxHeartbeats 1000000

/-!
Verification of the RxState reactive state container
(`libs/state/src/lib/rx-state.service.ts`) and of the in-memory ISR cache
handler (`libs/isr/server/src/cache-handlers/in-memory-cache-handler.ts`),
as a shallow embedding.

The `set`/`connect`/`get`/`hold`/`computedFrom` dispatch logic and the cache
handler are embedded from the source.  The accumulation primitives of the
selections package (`createAccumulationObservable`, `createSideEffectObservable`,
`safePluck`, the `select` operator) and the Angular `toSignal`/`toObservable`
conversions are not part of the source tree; definitions for them are marked
`Modelled from the spec:` and follow the specification's wording.
-/

/-- A JavaScript object with string keys and `V`-typed values, as an ordered
association list of fields; mirrors the field order of object literals. -/
abbrev StateMap (V : Type) := List (String × V)

/-- Object spread update of one field, `{ ...m, [k]: v }`: an existing key `k`
keeps its position and receives the new value, a fresh key is appended. -/
def setKey {V : Type} (m : StateMap V) (k : String) (v : V) : StateMap V :=
  if m.any (fun p => p.1 == k) then m.map (fun p => if p.1 == k then (k, v) else p)
  else m ++ [(k, v)]

/-- Property lookup `m[k]`. -/
def getKey {V : Type} (m : StateMap V) (k : String) : Option V :=
  (m.find? (fun p => p.1 == k)).map (fun p => p.2)

/-- Modelled from the spec: the default accumulation function of the
accumulator (`createAccumulationObservable` of the selections package, not
under `src/`): shallow field overwrite,
`(state, slice) => ({ ...state, ...slice })`. -/
def mergeRecord {V : Type} (state slice : StateMap V) : StateMap V :=
  slice.foldl (fun acc p => setKey acc p.1 p.2) state

/-- `CacheData` of the ISR models package: the record stored per url. -/
structure CacheData (H C : Type) where
  html : H
  options : C
  createdAt : Nat

/-- The `Map<string, CacheData>` held by `InMemoryCacheHandler`. -/
abbrev CacheMap (H C : Type) := StateMap (CacheData H C)

/-- `InMemoryCacheHandler.add`:
`cache.set(url, { html, options: config, createdAt: Date.now() })`. -/
def cacheAdd {H C : Type} (m : CacheMap H C) (url : String) (html : H) (config : C)
    (now : Nat) : CacheMap H C :=
  setKey m url { html := html, options := config, createdAt := now }

/-- `InMemoryCacheHandler.has`: `cache.has(url)`. -/
def cacheHas {H C : Type} (m : CacheMap H C) (url : String) : Bool :=
  (getKey m url).isSome

/-- `InMemoryCacheHandler.get`: resolves the stored data when the url is
present, rejects with `'This url does not exist in cache!'` otherwise. -/
def cacheGet {H C : Type} (m : CacheMap H C) (url : String) :
    Except String (CacheData H C) :=
  match getKey m url with
  | some d => Except.ok d
  | none => Except.error "This url does not exist in cache!"

/-- `InMemoryCacheHandler.delete`: `cache.delete(url)` removes the binding and
resolves whether it existed. -/
def cacheDelete {H C : Type} (m : CacheMap H C) (url : String) : CacheMap H C × Bool :=
  (m.filter (fun p => !(p.1 == url)), cacheHas m url)

/-- An event of an rxjs stream trace: a `next` emission or an `error`
notification (a trace ends at its first error). -/
inductive SrcEv (V : Type) where
  | next (v : V)
  | error (e : String)
deriving DecidableEq

/-- `catchError((e) => EMPTY)` over a finite event trace: `next` events are
forwarded and the stream completes at the first error, which is swallowed. -/
def swallowErrors {V : Type} : List (SrcEv V) → List (SrcEv V)
  | [] => []
  | SrcEv.next v :: rest => SrcEv.next v :: swallowErrors rest
  | SrcEv.error _ :: _ => []

/-- `tap(f)` where `f` may throw: each `next` emission invokes `f` and is
forwarded; an exception inside `f` becomes an error notification that
terminates the stream; an upstream error notification is forwarded as is and
terminates the stream. -/
def tapRun {V : Type} (f : V → Except String Unit) : List (SrcEv V) → List (SrcEv V)
  | [] => []
  | SrcEv.next v :: rest =>
    match f v with
    | Except.ok _ => SrcEv.next v :: tapRun f rest
    | Except.error e => [SrcEv.error e]
  | SrcEv.error e :: _ => [SrcEv.error e]

/-- `RxState.hold`: first
`sideEffect = obsOrObsWithSideEffect.pipe(catchError((e) => EMPTY))`, then
`sideEffect.pipe(tap(sideEffectFn))` when a side-effect function is given,
plain `sideEffect` otherwise. -/
def holdStream {V : Type} (src : List (SrcEv V)) (f : Option (V → Except String Unit)) :
    List (SrcEv V) :=
  match f with
  | some g => tapRun g (swallowErrors src)
  | none => swallowErrors src

/-- Whether a trace contains an error notification. -/
def hasError {V : Type} (l : List (SrcEv V)) : Bool :=
  l.any fun e => match e with
    | SrcEv.error _ => true
    | SrcEv.next _ => false

/-- A `hold` registration: the original effect stream and the optional
side-effect function. -/
abbrev EffectReg (V : Type) := List (SrcEv V) × Option (V → Except String Unit)

/-- Handle of a reactive source passed to `connect`: an observable, a signal
(converted with `toObservable`), or a non-key value that is neither an
observable nor a signal, which the code nevertheless hands to `toObservable`. -/
inductive SrcTag where
  | ofObs (s : Nat)
  | ofSig (s : Nat)
  | ofJunk
deriving DecidableEq

/-- A registration produced by `connect`: the observable handed to
`accumulator.nextSliceObservable` together with the mapping applied to each
of its emissions.  `bogusReducer` records a truthy non-function second
argument stored in `stateReducer`; invoking it on an emission throws. -/
inductive ConnReg (V : Type) where
  | slice (src : SrcTag)
  | reducer (src : SrcTag) (red : Option (StateMap V) → V → StateMap V)
  | bogusReducer (src : SrcTag)
  | keyed (k : String) (src : SrcTag)
  | keyedReducer (k : String) (src : SrcTag) (red : Option (StateMap V) → V → V)

/-- The state of an `RxState<T>` container: the current accumulator function,
the accumulator's state object, whether any slice was ever accumulated,
whether the aggregate subscription was torn down (`ngOnDestroy`), the
`connect` registrations, and the `hold` registrations. -/
structure RxState (V : Type) where
  accFn : StateMap V → StateMap V → StateMap V
  state : StateMap V
  hasPatched : Bool
  destroyed : Bool
  regs : List (ConnReg V)
  effects : List (EffectReg V)

/-- A freshly constructed container: default accumulator, the accumulator's
initial `{}` state, nothing registered. -/
def freshRx (V : Type) : RxState V :=
  { accFn := mergeRecord, state := [], hasPatched := false, destroyed := false,
    regs := [], effects := [] }

/-- A freshly constructed container with a custom accumulator installed via
`setAccumulator`. -/
def freshWith (V : Type) (acc : StateMap V → StateMap V → StateMap V) : RxState V :=
  { accFn := acc, state := [], hasPatched := false, destroyed := false,
    regs := [], effects := [] }

/-- `accumulator.nextSlice`: merge one slice into the state with the current
accumulator function.  Modelled from the spec for the selections package:
after teardown the accumulation subscription is closed, so a slice no longer
updates the state. -/
def nextSlice {V : Type} (c : RxState V) (p : StateMap V) : RxState V :=
  if c.destroyed then c
  else { c with state := c.accFn c.state p, hasPatched := true }

/-- `RxState.get()` with no keys:
`Object.keys(state).length > 0 ? state : undefined`. -/
def rxGet {V : Type} (c : RxState V) : Option (StateMap V) :=
  if c.state.isEmpty then none else some c.state

/-- `RxState.get(k)`: `safePluck(this.accumulator.state, [k])` (modelled from
the spec for the selections package: a null-safe property read). -/
def rxGetKey {V : Type} (c : RxState V) (k : String) : Option V :=
  getKey c.state k

/-- Modelled from the spec: the latest emission of the keyed view
`select(k)` — a replay-one, distinct view of the value at `k`, which has
emitted only once a slice has landed and the key is populated. -/
def selectKeyLatest {V : Type} (c : RxState V) (k : String) : Option V :=
  if c.hasPatched then getKey c.state k else none

/-- Runtime shape of the first argument of `RxState.set`. -/
inductive SetArg (V : Type) where
  | obj (p : StateMap V)
  | null
  | fn (f : StateMap V → StateMap V)
  | str (s : String)
  | num (n : Int)
  | undef
  | bool (b : Bool)

/-- Runtime shape of the second argument of `RxState.set` when present:
a function, or some other defined value. -/
inductive SetArg2 (V : Type) where
  | fn2 (f : StateMap V → V)
  | other

/-- The dispatch of `RxState.set` on its runtime arguments, returning the
slice passed to `accumulator.nextSlice`.  Guard 1:
`typeof first === 'object' && second === undefined` — note
`typeof null === 'object'`, and spreading `null` contributes no field.
Guard 2: `typeof first === 'function' && second === undefined`, applied to
`this.accumulator.state`.  Guard 3: `isKeyOf(first) && typeof second ===
'function'` (`isKeyOf`: a string or number key name, modelled from the spec
for the selections package), building `{}` and assigning
`state[key] = second(this.accumulator.state)`.  Otherwise
`throw new Error('wrong params passed to set')`. -/
def setDispatch {V : Type} (st : StateMap V) :
    SetArg V → Option (SetArg2 V) → Except String (StateMap V)
  | SetArg.obj p, none => Except.ok p
  | SetArg.null, none => Except.ok []
  | SetArg.fn f, none => Except.ok (f st)
  | SetArg.str k, some (SetArg2.fn2 f) => Except.ok (setKey [] k (f st))
  | SetArg.num n, some (SetArg2.fn2 f) => Except.ok (setKey [] (toString n) (f st))
  | _, _ => Except.error "wrong params passed to set"

/-- `RxState.set`: dispatch, then `accumulator.nextSlice` on success; a throw
leaves the container untouched. -/
def rxSet {V : Type} (c : RxState V) (a1 : SetArg V) (a2 : Option (SetArg2 V)) :
    Except String (RxState V) :=
  match setDispatch c.state a1 a2 with
  | Except.ok p => Except.ok (nextSlice c p)
  | Except.error e => Except.error e

/-- The valid `set` shapes of the claim: record alone, projection function
alone, key plus per-key projection function. -/
def validSetCall {V : Type} : SetArg V → Option (SetArg2 V) → Bool
  | SetArg.obj _, none => true
  | SetArg.fn _, none => true
  | SetArg.str _, some (SetArg2.fn2 _) => true
  | SetArg.num _, some (SetArg2.fn2 _) => true
  | _, _ => false

/-- The exceptional invocation `set(null)`: `typeof null === 'object'`, so it
is dispatched as a record. -/
def isNullSet {V : Type} : SetArg V → Option (SetArg2 V) → Bool
  | SetArg.null, none => true
  | _, _ => false

/-- A valid `set` invocation (one of the three claim shapes). -/
inductive SetCall (V : Type) where
  | patch (p : StateMap V)
  | proj (f : StateMap V → StateMap V)
  | keyProj (k : String) (f : StateMap V → V)

/-- First runtime argument of a valid `set` invocation. -/
def callArg1 {V : Type} : SetCall V → SetArg V
  | SetCall.patch p => SetArg.obj p
  | SetCall.proj f => SetArg.fn f
  | SetCall.keyProj k _ => SetArg.str k

/-- Second runtime argument of a valid `set` invocation. -/
def callArg2 {V : Type} : SetCall V → Option (SetArg2 V)
  | SetCall.keyProj _ f => some (SetArg2.fn2 f)
  | _ => none

/-- The slice a valid `set` invocation induces at snapshot `st`. -/
def inducedPatch {V : Type} (st : StateMap V) : SetCall V → StateMap V
  | SetCall.patch p => p
  | SetCall.proj f => f st
  | SetCall.keyProj k f => setKey [] k (f st)

/-- Run a sequence of `set` invocations through the embedded dispatch. -/
def runSetCalls {V : Type} (c : RxState V) : List (SetCall V) → RxState V
  | [] => c
  | sc :: rest =>
    match rxSet c (callArg1 sc) (callArg2 sc) with
    | Except.ok c' => runSetCalls c' rest
    | Except.error _ => runSetCalls c rest

/-- The slices induced by a sequence of `set` invocations, each computed at
the intermediate snapshot obtained by folding the accumulator over the
earlier ones. -/
def inducedPatches {V : Type} (acc : StateMap V → StateMap V → StateMap V)
    (st : StateMap V) : List (SetCall V) → List (StateMap V)
  | [] => []
  | sc :: rest => inducedPatch st sc :: inducedPatches acc (acc st (inducedPatch st sc)) rest

/-- The projection of the spec scenario, `s => ({ count: s.count + 1 })`; at
its use site `count` is populated, so the default `0` of the model is never
taken. -/
def countProj : StateMap Int → StateMap Int :=
  fun s => [("count", (getKey s "count").getD 0 + 1)]

/-- Runtime shape of the first argument of `RxState.connect`. -/
inductive ConnArg1 (V : Type) where
  | key (k : String)
  | obs (s : Nat)
  | sig (s : Nat)
  | otherV

/-- Runtime shape of the second argument of `RxState.connect` when present:
an observable, a signal, a reducer function, some other truthy value, or
some other defined falsy value. -/
inductive ConnArg2 (V : Type) where
  | obs (s : Nat)
  | sig (s : Nat)
  | fn (red : Option (StateMap V) → V → StateMap V)
  | otherTruthy
  | otherFalsy

/-- Runtime shape of the third argument of `RxState.connect` when present. -/
inductive ConnArg3 (V : Type) where
  | fn (red : Option (StateMap V) → V → V)
  | other

/-- `let inputOrSlice$ ...`: when the first argument is not a key it becomes
a source — taken as is when it is an observable, passed through
`toObservable` otherwise (also when it is not actually a signal). -/
def wrapA1 {V : Type} : ConnArg1 V → Option SrcTag
  | ConnArg1.key _ => none
  | ConnArg1.obs s => some (SrcTag.ofObs s)
  | ConnArg1.sig s => some (SrcTag.ofSig s)
  | ConnArg1.otherV => some SrcTag.ofJunk

/-- `const key = !inputOrSlice$ && isKeyOf(first) ? first : null`. -/
def keyOfA1 {V : Type} : ConnArg1 V → Option String
  | ConnArg1.key k => some k
  | _ => none

/-- `slices$`: second argument taken as a source when it is an observable or
a signal (the signal again via `toObservable`). -/
def a2Slices {V : Type} : Option (ConnArg2 V) → Option SrcTag
  | some (ConnArg2.obs s) => some (SrcTag.ofObs s)
  | some (ConnArg2.sig s) => some (SrcTag.ofSig s)
  | _ => none

/-- What lands in `stateReducer`: either a reducer function or a recorded
truthy non-function (no `typeof` check is performed on this branch). -/
inductive RedTag (V : Type) where
  | fn (red : Option (StateMap V) → V → StateMap V)
  | bogus

/-- `stateReducer`: assigned from a truthy second argument that is neither an
observable nor a signal. -/
def a2Reducer {V : Type} : Option (ConnArg2 V) → Option (RedTag V)
  | some (ConnArg2.fn red) => some (RedTag.fn red)
  | some ConnArg2.otherTruthy => some RedTag.bogus
  | _ => none

/-- The dispatch of `RxState.connect`: the four guarded returns of the source
in order — slice observable; source plus `stateReducer`; key plus source;
key plus source plus per-key reducer — and the final
`throw new Error('wrong params passed to connect')`. -/
def connectDispatch {V : Type} (a1 : ConnArg1 V) (a2 : Option (ConnArg2 V))
    (a3 : Option (ConnArg3 V)) : Except String (ConnReg V) :=
  match wrapA1 (V := V) a1, a2, a3 with
  | some src, none, none => Except.ok (ConnReg.slice src)
  | inputOrSlice, _, _ =>
    match inputOrSlice, a2Reducer a2, a3 with
    | some src, some (RedTag.fn red), none => Except.ok (ConnReg.reducer src red)
    | some src, some RedTag.bogus, none => Except.ok (ConnReg.bogusReducer src)
    | _, _, _ =>
      match keyOfA1 a1, a2Slices a2, a3 with
      | some k, some s, none => Except.ok (ConnReg.keyed k s)
      | some k, some s, some (ConnArg3.fn red) => Except.ok (ConnReg.keyedReducer k s red)
      | _, _, _ => Except.error "wrong params passed to connect"

/-- `RxState.connect`: dispatch, then registration of the slice observable on
the accumulator; a throw leaves the container untouched. -/
def rxConnect {V : Type} (c : RxState V) (a1 : ConnArg1 V) (a2 : Option (ConnArg2 V))
    (a3 : Option (ConnArg3 V)) : Except String (RxState V) :=
  match connectDispatch a1 a2 a3 with
  | Except.ok r => Except.ok { c with regs := c.regs ++ [r] }
  | Except.error e => Except.error e

/-- The four valid `connect` shapes of the claim: source alone, source plus
reducer function, key plus source, key plus source plus reducer function
(a source being an observable or a signal). -/
def validConnectCall {V : Type} :
    ConnArg1 V → Option (ConnArg2 V) → Option (ConnArg3 V) → Bool
  | ConnArg1.obs _, none, none => true
  | ConnArg1.sig _, none, none => true
  | ConnArg1.obs _, some (ConnArg2.fn _), none => true
  | ConnArg1.sig _, some (ConnArg2.fn _), none => true
  | ConnArg1.key _, some (ConnArg2.obs _), none => true
  | ConnArg1.key _, some (ConnArg2.sig _), none => true
  | ConnArg1.key _, some (ConnArg2.obs _), some (ConnArg3.fn _) => true
  | ConnArg1.key _, some (ConnArg2.sig _), some (ConnArg3.fn _) => true
  | _, _, _ => false

/-- The invalid `connect` shapes that the dispatch nevertheless registers
without a synchronous error: a non-key first argument that is neither an
observable nor a signal is coerced with `toObservable` (alone, or with a
reducer function, or with a truthy non-source second argument), and a truthy
non-source non-function second argument is stored as `stateReducer` with no
function check when the first argument yielded a source and there is no
third argument. -/
def connectCoerced {V : Type} :
    ConnArg1 V → Option (ConnArg2 V) → Option (ConnArg3 V) → Bool
  | ConnArg1.otherV, none, none => true
  | ConnArg1.otherV, some (ConnArg2.fn _), none => true
  | ConnArg1.obs _, some ConnArg2.otherTruthy, none => true
  | ConnArg1.sig _, some ConnArg2.otherTruthy, none => true
  | ConnArg1.otherV, some ConnArg2.otherTruthy, none => true
  | _, _, _ => false

/-- A value emitted by a registered source: a slice (for the slice-observable
shapes) or a raw value (for the keyed and reducer shapes). -/
inductive EmitVal (V : Type) where
  | patch (p : StateMap V)
  | val (v : V)

/-- The slice a registration turns one emission into.  Reducers receive
`this.get()` — the sentinel-aware read — as their old-state argument; a keyed
source builds `{ ...{}, [key]: value }`; a bogus reducer (registered
non-function) throws on invocation, so no slice is produced; an emission of
the wrong kind for the registration cannot occur in typed callers. -/
def regPatch {V : Type} (c : RxState V) : ConnReg V → EmitVal V → Option (StateMap V)
  | ConnReg.slice _, EmitVal.patch p => some p
  | ConnReg.reducer _ red, EmitVal.val v => some (red (rxGet c) v)
  | ConnReg.keyed k _, EmitVal.val v => some (setKey [] k v)
  | ConnReg.keyedReducer k _ red, EmitVal.val v => some (setKey [] k (red (rxGet c) v))
  | _, _ => none

/-- An externally observable event in the life of a container. -/
inductive RxEvent (V : Type) where
  | setCall (sc : SetCall V)
  | reg (r : ConnReg V)
  | holdReg (src : List (SrcEv V)) (f : Option (V → Except String Unit))
  | emit (i : Nat) (ev : EmitVal V)
  | emitEffect (i : Nat)
  | destroy

/-- `RxState.hold` stores the effect stream and the optional side-effect
function on the side-effect channel (`effectObservable.nextEffectObservable`). -/
def rxHold {V : Type} (c : RxState V) (src : List (SrcEv V))
    (f : Option (V → Except String Unit)) : RxState V :=
  { c with effects := c.effects ++ [(src, f)] }

/-- One container step.  An emission of a registered source merges its slice
unless the container is torn down — modelled from the spec: the aggregate
subscription owns every source subscription and tearing it down unsubscribes
them all, so later emissions are inert.  Effect emissions never touch the
state.  `destroy` is `ngOnDestroy`: `this.subscription.unsubscribe()`. -/
def stepEvent {V : Type} (c : RxState V) : RxEvent V → RxState V
  | RxEvent.setCall sc =>
    match rxSet c (callArg1 sc) (callArg2 sc) with
    | Except.ok c' => c'
    | Except.error _ => c
  | RxEvent.reg r => { c with regs := c.regs ++ [r] }
  | RxEvent.holdReg src f => rxHold c src f
  | RxEvent.emit i ev =>
    if c.destroyed then c
    else
      match c.regs.get? i with
      | some r =>
        match regPatch c r ev with
        | some p => nextSlice c p
        | none => c
      | none => c
  | RxEvent.emitEffect _ => c
  | RxEvent.destroy => { c with destroyed := true }

/-- Run a trace of events. -/
def runEvents {V : Type} (c : RxState V) (evs : List (RxEvent V)) : RxState V :=
  evs.foldl stepEvent c

/-- Whether an event is an emission of an already registered source or effect
stream (as opposed to a call into the container's API). -/
def isEmission {V : Type} : RxEvent V → Bool
  | RxEvent.emit _ _ => true
  | RxEvent.emitEffect _ => true
  | _ => false

/-- The side-effect runner's composed output, one trace per registered
effect. -/
def runnerOutputs {V : Type} (c : RxState V) : List (List (SrcEv V)) :=
  c.effects.map fun e => holdStream e.1 e.2

/-- The synchronous emissions of `select()` at subscription time: the shared
replayed snapshot stream has one replayed synchronous emission exactly when
some slice has landed (modelled from the spec: replay-one view). -/
def selectSync {V : Type} (c : RxState V) : List (StateMap V) :=
  if c.hasPatched then [c.state] else []

/-- Modelled from the spec: `toSignal(source$, { requireSync: true })` — the
derived cell keeps the latest synchronous emission and raises a
configuration error when there is none. -/
def toSignalRequireSync {O : Type} (l : List O) : Except String O :=
  match l.getLast? with
  | some v => Except.ok v
  | none => Except.error "requireSync observable did not emit synchronously"

/-- `RxState.computedFrom(...operators)`:
`toSignal(this.select(...operators), { requireSync: true })`; the operator
pipeline is modelled as a function on the synchronous emission trace of the
selection. -/
def computedFrom {V O : Type} (c : RxState V) (ops : List (StateMap V) → List O) :
    Except String O :=
  toSignalRequireSync (ops (selectSync c))

theorem find?_key_cons_ne {V : Type} (a : String × V) (l : StateMap V) (k : String)
    (h : ¬ a.1 = k) :
    List.find? (fun p => p.1 == k) (a :: l) = List.find? (fun p => p.1 == k) l :=
  List.find?_cons_of_neg _ (by simpa using h)

theorem find?_key_cons_eq {V : Type} (a : String × V) (l : StateMap V) (k : String)
    (h : a.1 = k) :
    List.find? (fun p => p.1 == k) (a :: l) = some a :=
  List.find?_cons_of_pos _ (by simpa using h)

theorem find?_map_update {V : Type} (k : String) (v : V) :
    ∀ m : StateMap V,
      (m.map (fun p => if p.1 == k then (k, v) else p)).find? (fun p => p.1 == k)
        = if m.any (fun p => p.1 == k) then some (k, v) else none := by
  intro m
  induction m with
  | nil => simp
  | cons a l ih =>
    by_cases h : a.1 = k
    · simp [h]
    · have hb : (a.1 == k) = false := by simp [h]
      simp only [List.map_cons, hb, Bool.false_eq_true, if_false, List.any_cons,
        Bool.false_or]
      rw [find?_key_cons_ne a _ k h, ih]

theorem find?_append_right_absent {V : Type} (k : String) (v : V) :
    ∀ m : StateMap V, m.any (fun p => p.1 == k) = false →
      (m ++ [(k, v)]).find? (fun p => p.1 == k) = some (k, v) := by
  intro m
  induction m with
  | nil => simp
  | cons a l ih =>
    intro h
    simp only [List.any_cons, Bool.or_eq_false_iff] at h
    rw [List.cons_append, find?_key_cons_ne a _ k (by simpa using h.1)]
    exact ih h.2

theorem getKey_setKey_self {V : Type} (m : StateMap V) (k : String) (v : V) :
    getKey (setKey m k v) k = some v := by
  unfold setKey getKey
  cases h : m.any (fun p => p.1 == k) with
  | false =>
    rw [if_neg (by simp [h]), find?_append_right_absent k v m h]
    rfl
  | true =>
    rw [if_pos (by simp [h]), find?_map_update k v m, if_pos (by simp [h])]
    rfl

theorem find?_map_update_ne {V : Type} (k k' : String) (v : V) (hne : k' ≠ k) :
    ∀ m : StateMap V,
      (m.map (fun p => if p.1 == k then (k, v) else p)).find? (fun p => p.1 == k')
        = m.find? (fun p => p.1 == k') := by
  intro m
  have hkk' : ¬ ((k : String) == k') = true := by simp [Ne.symm hne]
  induction m with
  | nil => simp
  | cons a l ih =>
    by_cases h : a.1 = k
    · simp only [List.map_cons, if_pos (by simp [h] : (a.1 == k) = true)]
      rw [find?_key_cons_ne (k, v) _ k' (by simpa using Ne.symm hne),
        find?_key_cons_ne a _ k' (by rw [h]; exact Ne.symm hne), ih]
    · simp only [List.map_cons,
        if_neg (by simp [h] : ¬ (a.1 == k) = true)]
      by_cases h2 : a.1 = k'
      · rw [find?_key_cons_eq a _ k' h2, find?_key_cons_eq a _ k' h2]
      · rw [find?_key_cons_ne a _ k' h2, find?_key_cons_ne a _ k' h2, ih]

theorem getKey_setKey_ne {V : Type} (m : StateMap V) (k k' : String) (v : V)
    (hne : k' ≠ k) : getKey (setKey m k v) k' = getKey m k' := by
  unfold setKey getKey
  cases h : m.any (fun p => p.1 == k) with
  | true =>
    rw [if_pos (by simp [h]), find?_map_update_ne k k' v hne m]
  | false =>
    rw [if_neg (by simp [h]), List.find?_append]
    have h2 : ([((k : String), v)].find? (fun p => p.1 == k')) = none := by
      simp [Ne.symm hne]
    rw [h2]
    cases m.find? (fun p => p.1 == k') <;> rfl

theorem setKey_ne_nil {V : Type} (m : StateMap V) (k : String) (v : V) :
    setKey m k v ≠ [] := by
  unfold setKey
  cases m with
  | nil => simp
  | cons a l =>
    split
    · simp
    · simp

theorem foldl_setKey_ne_nil {V : Type} :
    ∀ (ps : List (String × V)) (m : StateMap V), m ≠ [] →
      ps.foldl (fun acc p => setKey acc p.1 p.2) m ≠ [] := by
  intro ps
  induction ps with
  | nil => intro m h; exact h
  | cons q rest ih =>
    intro m _
    exact ih (setKey m q.1 q.2) (setKey_ne_nil m q.1 q.2)

theorem mergeRecord_ne_nil {V : Type} (st p : StateMap V) (hp : p ≠ []) :
    mergeRecord st p ≠ [] := by
  cases p with
  | nil => exact absurd rfl hp
  | cons q rest =>
    unfold mergeRecord
    rw [List.foldl_cons]
    exact foldl_setKey_ne_nil rest (setKey st q.1 q.2) (setKey_ne_nil st q.1 q.2)

theorem mergeRecord_single {V : Type} (st : StateMap V) (k : String) (v : V) :
    mergeRecord st [(k, v)] = setKey st k v := rfl

theorem getKey_filter_out {V : Type} (k : String) :
    ∀ m : StateMap V, getKey (m.filter (fun p => !(p.1 == k))) k = none := by
  intro m
  induction m with
  | nil => rfl
  | cons a l ih =>
    by_cases h : a.1 = k
    · simpa [List.filter_cons, h] using ih
    · simp only [List.filter_cons,
        if_pos (by simp [h] : ((!(a.1 == k)) = true))]
      unfold getKey
      rw [List.find?_cons_of_neg _ (by simp [h])]
      exact ih

/-- Claim C8: for the in-memory cache backend, after `add(url, html, config)`
resolves, `has(url)` is true and `get(url)` resolves to a record whose `html`
field is `html` and whose `options` field is `config`; after `delete(url)`,
`get(url)` rejects with `'This url does not exist in cache!'` and `has(url)`
is false. -/
theorem claim_C8 :
    ∀ (H C : Type) (m : CacheMap H C) (url : String) (html : H) (config : C) (now : Nat),
      cacheHas (cacheAdd m url html config now) url = true
      ∧ cacheGet (cacheAdd m url html config now) url
          = Except.ok { html := html, options := config, createdAt := now }
      ∧ cacheGet (cacheDelete m url).1 url = Except.error "This url does not exist in cache!"
      ∧ cacheHas (cacheDelete m url).1 url = false := by
  intro H C m url html config now
  refine ⟨?_, ?_, ?_, ?_⟩
  · unfold cacheHas cacheAdd
    rw [getKey_setKey_self]
    rfl
  · unfold cacheGet cacheAdd
    rw [getKey_setKey_self]
  · unfold cacheGet cacheDelete
    rw [getKey_filter_out]
  · unfold cacheHas cacheDelete
    rw [getKey_filter_out]
    rfl

theorem hasError_nil {V : Type} : hasError ([] : List (SrcEv V)) = false := rfl

theorem hasError_cons_next {V : Type} (v : V) (l : List (SrcEv V)) :
    hasError (SrcEv.next v :: l) = hasError l := by
  simp [hasError, List.any_cons]

theorem hasError_cons_error {V : Type} (e : String) (l : List (SrcEv V)) :
    hasError (SrcEv.error e :: l) = true := by
  simp [hasError, List.any_cons]

theorem hasError_swallowErrors {V : Type} :
    ∀ src : List (SrcEv V), hasError (swallowErrors src) = false := by
  intro src
  induction src with
  | nil => rfl
  | cons a rest ih =>
    cases a with
    | next v => rw [swallowErrors, hasError_cons_next]; exact ih
    | error e => rfl

theorem tapRun_noThrow {V : Type} (f : V → Except String Unit)
    (hf : ∀ v, f v = Except.ok ()) :
    ∀ l : List (SrcEv V), hasError l = false → hasError (tapRun f l) = false := by
  intro l
  induction l with
  | nil => intro _; rfl
  | cons a rest ih =>
    intro h
    cases a with
    | next v =>
      rw [hasError_cons_next] at h
      rw [tapRun, hf v, hasError_cons_next]
      exact ih h
    | error e => rw [hasError_cons_error] at h; exact absurd h (by simp)

theorem tapRun_error_mem {V : Type} (f : V → Except String Unit) (e : String) :
    ∀ l : List (SrcEv V), hasError l = false →
      SrcEv.error e ∈ tapRun f l → ∃ v, SrcEv.next v ∈ l ∧ f v = Except.error e := by
  intro l
  induction l with
  | nil => intro _ hm; simp [tapRun] at hm
  | cons a rest ih =>
    intro h hm
    cases a with
    | next v =>
      rw [hasError_cons_next] at h
      rw [tapRun] at hm
      cases hfv : f v with
      | ok u =>
        rw [hfv] at hm
        rcases List.mem_cons.mp hm with h1 | h1
        · exact absurd h1 (by simp)
        · obtain ⟨w, hw1, hw2⟩ := ih h h1
          exact ⟨w, List.mem_cons_of_mem _ hw1, hw2⟩
      | error e' =>
        rw [hfv] at hm
        rcases List.mem_cons.mp hm with h1 | h1
        · cases h1
          exact ⟨v, List.mem_cons_self _ _, hfv⟩
        · simp at h1
    | error e' => rw [hasError_cons_error] at h; exact absurd h (by simp)

theorem tapRun_escape {V : Type} (f : V → Except String Unit) (v : V) (e : String)
    (hfv : f v = Except.error e) :
    ∀ l : List (SrcEv V), SrcEv.next v ∈ l → hasError (tapRun f l) = true := by
  intro l
  induction l with
  | nil => intro hm; simp at hm
  | cons a rest ih =>
    intro hm
    cases a with
    | next u =>
      cases hfu : f u with
      | ok w =>
        rw [tapRun, hfu, hasError_cons_next]
        rcases List.mem_cons.mp hm with h1 | h1
        · cases h1
          rw [hfv] at hfu
          exact absurd hfu (by simp)
        · exact ih h1
      | error e' => rw [tapRun, hfu, hasError_cons_error]
    | error e' => rw [tapRun, hasError_cons_error]

theorem nextSlice_effects {V : Type} (c : RxState V) (effs : List (EffectReg V))
    (p : StateMap V) :
    nextSlice { c with effects := effs } p = { nextSlice c p with effects := effs } := by
  cases h : c.destroyed <;> simp [nextSlice, h]

theorem rxSet_setCall {V : Type} (c : RxState V) (sc : SetCall V) :
    rxSet c (callArg1 sc) (callArg2 sc)
      = Except.ok (nextSlice c (inducedPatch c.state sc)) := by
  cases sc <;> rfl

theorem runSetCalls_effects {V : Type} :
    ∀ (calls : List (SetCall V)) (c : RxState V) (effs : List (EffectReg V)),
      (runSetCalls { c with effects := effs } calls).state
        = (runSetCalls c calls).state := by
  intro calls
  induction calls with
  | nil => intro c effs; rfl
  | cons sc rest ih =>
    intro c effs
    rw [runSetCalls, runSetCalls, rxSet_setCall c sc,
      rxSet_setCall { c with effects := effs } sc]
    have hstep : nextSlice { c with effects := effs }
        (inducedPatch { c with effects := effs }.state sc)
          = { nextSlice c (inducedPatch c.state sc) with effects := effs } :=
      nextSlice_effects c effs (inducedPatch c.state sc)
    rw [hstep]
    exact ih (nextSlice c (inducedPatch c.state sc)) effs

/-- Claim C4: an error raised by an effect stream registered via `hold` is
caught and discarded — the swallowed trace carries no error (with no
side-effect function, and with any non-throwing side-effect function); each
registered effect's runner output is computed from that effect alone; and
the result of any sequence of `set` calls is independent of the registered
effects. -/
theorem claim_C4 :
    (∀ (V : Type) (src : List (SrcEv V)), hasError (holdStream src none) = false)
    ∧ (∀ (V : Type) (src : List (SrcEv V)) (f : V → Except String Unit),
        (∀ v, f v = Except.ok ()) → hasError (holdStream src (some f)) = false)
    ∧ (∀ (V : Type) (c : RxState V) (j : Nat),
        (runnerOutputs c)[j]? = (c.effects[j]?).map (fun e => holdStream e.1 e.2))
    ∧ (∀ (V : Type) (c : RxState V) (effs : List (EffectReg V))
        (calls : List (SetCall V)),
        (runSetCalls { c with effects := effs } calls).state
          = (runSetCalls c calls).state) := by
  refine ⟨?_, ?_, ?_, ?_⟩
  · intro V src
    exact hasError_swallowErrors src
  · intro V src f hf
    exact tapRun_noThrow f hf (swallowErrors src) (hasError_swallowErrors src)
  · intro V c j
    unfold runnerOutputs
    exact List.getElem?_map _ c.effects j
  · intro V c effs calls
    exact runSetCalls_effects calls c effs

/-- Witness for claim C4: a stream that errors after one emission, held with
a non-throwing side-effect function, produces an error-free runner trace. -/
theorem claim_C4_w :
    hasError (holdStream [SrcEv.next (1 : Int), SrcEv.error "boom"]
      (some fun _ => Except.ok ())) = false :=
  claim_C4.2.1 Int [SrcEv.next 1, SrcEv.error "boom"] (fun _ => Except.ok ())
    (fun _ => rfl)

/-- Claim C9: in `hold`, `catchError` is upstream of `tap(sideEffectFn)` —
every error notification in the composed effect trace arises from the
side-effect function throwing on some emitted value (so errors of the source
stream itself are swallowed), and a value on which the side-effect function
throws does make an error escape into the side-effect channel. -/
theorem claim_C9 :
    (∀ (V : Type) (src : List (SrcEv V)) (f : V → Except String Unit) (e : String),
        SrcEv.error e ∈ holdStream src (some f) →
        ∃ v, SrcEv.next v ∈ swallowErrors src ∧ f v = Except.error e)
    ∧ (∀ (V : Type) (src : List (SrcEv V)) (f : V → Except String Unit) (v : V)
        (e : String),
        SrcEv.next v ∈ swallowErrors src → f v = Except.error e →
        hasError (holdStream src (some f)) = true) := by
  constructor
  · intro V src f e hm
    exact tapRun_error_mem f e (swallowErrors src) (hasError_swallowErrors src) hm
  · intro V src f v e hv hf
    exact tapRun_escape f v e hf (swallowErrors src) hv

/-- Witness for claim C9: a side-effect function that throws on the emission
`1` makes an error escape past the swallowing wrapper. -/
theorem claim_C9_w :
    hasError (holdStream [SrcEv.next (1 : Int)]
      (some fun _ => Except.error "boom")) = true :=
  claim_C9.2 Int [SrcEv.next 1] (fun _ => Except.error "boom") 1 "boom"
    (by simp [swallowErrors]) rfl

/-- Claim C7: `computedFrom` requires a synchronous initial value — when the
composed selection has no synchronous emission the call raises the
configuration error, and otherwise the derived value holds the latest
synchronous emission. -/
theorem claim_C7 :
    ∀ (V O : Type) (c : RxState V) (ops : List (StateMap V) → List O),
      (ops (selectSync c) = [] →
        computedFrom c ops
          = Except.error "requireSync observable did not emit synchronously")
      ∧ (∀ v : O, (ops (selectSync c)).getLast? = some v →
          computedFrom c ops = Except.ok v) := by
  intro V O c ops
  constructor
  · intro h
    simp [computedFrom, toSignalRequireSync, h]
  · intro v h
    simp [computedFrom, toSignalRequireSync, h]

/-- Witness for claim C7: on a fresh container (no slice has landed) the
identity pipeline has no synchronous emission and `computedFrom` raises the
configuration error. -/
theorem claim_C7_w :
    computedFrom (freshRx Int) (fun l => l)
      = Except.error "requireSync observable did not emit synchronously" :=
  (claim_C7 Int (StateMap Int) (freshRx Int) (fun l => l)).1 rfl

/-- Claim C10: a `connect(source, reducer)` registration passes `this.get()`
at the moment of the emission as the reducer's old-state argument; on a
fresh container this is the absent-state sentinel (`none`), while `set` with
a projection function passes the accumulator's internal state object — the
empty record — instead. -/
theorem claim_C10 :
    (∀ (V : Type) (c : RxState V) (s : SrcTag)
        (red : Option (StateMap V) → V → StateMap V) (v : V),
        regPatch c (ConnReg.reducer s red) (EmitVal.val v) = some (red (rxGet c) v))
    ∧ (∀ V : Type, rxGet (freshRx V) = none)
    ∧ (∀ (V : Type) (s : SrcTag) (red : Option (StateMap V) → V → StateMap V) (v : V),
        regPatch (freshRx V) (ConnReg.reducer s red) (EmitVal.val v) = some (red none v))
    ∧ (∀ (V : Type) (f : StateMap V → StateMap V),
        setDispatch (freshRx V).state (SetArg.fn f) none = Except.ok (f [])) :=
  ⟨fun _ _ _ _ _ => rfl, fun _ => rfl, fun _ _ _ _ => rfl, fun _ _ => rfl⟩

theorem nextSlice_accFn {V : Type} (c : RxState V) (p : StateMap V) :
    (nextSlice c p).accFn = c.accFn := by
  unfold nextSlice
  split <;> rfl

theorem nextSlice_destroyed {V : Type} (c : RxState V) (p : StateMap V) :
    (nextSlice c p).destroyed = c.destroyed := by
  unfold nextSlice
  split <;> rfl

theorem nextSlice_state_active {V : Type} (c : RxState V) (p : StateMap V)
    (h : c.destroyed = false) : (nextSlice c p).state = c.accFn c.state p := by
  simp [nextSlice, h]

theorem runSetCalls_state {V : Type} :
    ∀ (calls : List (SetCall V)) (c : RxState V), c.destroyed = false →
      (runSetCalls c calls).state
        = (inducedPatches c.accFn c.state calls).foldl c.accFn c.state := by
  intro calls
  induction calls with
  | nil => intro c _; rfl
  | cons sc rest ih =>
    intro c h
    rw [runSetCalls, rxSet_setCall c sc, inducedPatches, List.foldl_cons]
    have h2 := ih (nextSlice c (inducedPatch c.state sc))
      (by rw [nextSlice_destroyed]; exact h)
    rw [h2, nextSlice_accFn, nextSlice_state_active c _ h]

/-- Claim C1: for every sequence of valid `set` invocations, the resulting
snapshot equals iteratively folding the accumulator function over the induced
slices in call order, starting from the empty record; and in the concrete
scenario with no merge override, `set({count: 1})` followed by
`set(s => ({count: s.count + 1}))` makes `get('count')` equal `2`. -/
theorem claim_C1 :
    (∀ (V : Type) (acc : StateMap V → StateMap V → StateMap V)
        (calls : List (SetCall V)),
        (runSetCalls (freshWith V acc) calls).state
          = (inducedPatches acc [] calls).foldl acc [])
    ∧ rxGetKey (runSetCalls (freshRx Int)
        [SetCall.patch [("count", 1)], SetCall.proj countProj]) "count"
        = some 2 := by
  constructor
  · intro V acc calls
    exact runSetCalls_state calls (freshWith V acc) rfl
  · rfl

theorem stepEvent_inert {V : Type} (c : RxState V) (e : RxEvent V)
    (hd : c.destroyed = true) (he : isEmission e = true) : stepEvent c e = c := by
  cases e with
  | emit i ev => simp [stepEvent, hd]
  | emitEffect i => rfl
  | setCall sc => exact absurd he (by simp [isEmission])
  | reg r => exact absurd he (by simp [isEmission])
  | holdReg src f => exact absurd he (by simp [isEmission])
  | destroy => exact absurd he (by simp [isEmission])

theorem runEvents_inert {V : Type} :
    ∀ (post : List (RxEvent V)) (c : RxState V), c.destroyed = true →
      post.all isEmission = true → runEvents c post = c := by
  intro post
  induction post with
  | nil => intro c _ _; rfl
  | cons e rest ih =>
    intro c hd hall
    rw [List.all_cons, Bool.and_eq_true] at hall
    have h1 : stepEvent c e = c := stepEvent_inert c e hd hall.1
    show runEvents (stepEvent c e) rest = c
    rw [h1]
    exact ih c hd hall.2

theorem runEvents_append {V : Type} (c : RxState V) (l1 l2 : List (RxEvent V)) :
    runEvents c (l1 ++ l2) = runEvents (runEvents c l1) l2 :=
  List.foldl_append _ _ _ _

/-- Claim C2: after container teardown every previously registered source and
effect subscription is inert — a trace that continues, after the `destroy`
event, with emissions only (from `connect`ed sources or `hold` effects)
leaves the container, and hence the value returned by `get()`, exactly as it
was right after teardown. -/
theorem claim_C2 :
    ∀ (V : Type) (c0 : RxState V) (pre post : List (RxEvent V)),
      post.all isEmission = true →
      runEvents c0 (pre ++ RxEvent.destroy :: post)
        = runEvents c0 (pre ++ [RxEvent.destroy])
      ∧ rxGet (runEvents c0 (pre ++ RxEvent.destroy :: post))
        = rxGet (runEvents c0 (pre ++ [RxEvent.destroy])) := by
  intro V c0 pre post hall
  have hsplit : pre ++ RxEvent.destroy :: post
      = (pre ++ [RxEvent.destroy]) ++ post := by simp
  have hd : (runEvents c0 (pre ++ [RxEvent.destroy])).destroyed = true := by
    rw [runEvents_append]
    rfl
  have h1 : runEvents c0 (pre ++ RxEvent.destroy :: post)
      = runEvents c0 (pre ++ [RxEvent.destroy]) := by
    rw [hsplit, runEvents_append]
    exact runEvents_inert post _ hd hall
  exact ⟨h1, by rw [h1]⟩

/-- Witness for claim C2: a concrete trace — a patch, a keyed registration,
teardown, then a late emission of the registered source — ends in the same
container state as the trace that stops at teardown. -/
theorem claim_C2_w :
    runEvents (freshRx Int)
        ([RxEvent.setCall (SetCall.patch [("a", 1)]),
          RxEvent.reg (ConnReg.keyed "a" (SrcTag.ofObs 0))]
          ++ RxEvent.destroy :: [RxEvent.emit 0 (EmitVal.val 5)])
      = runEvents (freshRx Int)
        ([RxEvent.setCall (SetCall.patch [("a", 1)]),
          RxEvent.reg (ConnReg.keyed "a" (SrcTag.ofObs 0))]
          ++ [RxEvent.destroy])
    ∧ rxGet (runEvents (freshRx Int)
        ([RxEvent.setCall (SetCall.patch [("a", 1)]),
          RxEvent.reg (ConnReg.keyed "a" (SrcTag.ofObs 0))]
          ++ RxEvent.destroy :: [RxEvent.emit 0 (EmitVal.val 5)]))
      = rxGet (runEvents (freshRx Int)
        ([RxEvent.setCall (SetCall.patch [("a", 1)]),
          RxEvent.reg (ConnReg.keyed "a" (SrcTag.ofObs 0))]
          ++ [RxEvent.destroy])) :=
  claim_C2 Int (freshRx Int)
    [RxEvent.setCall (SetCall.patch [("a", 1)]),
      RxEvent.reg (ConnReg.keyed "a" (SrcTag.ofObs 0))]
    [RxEvent.emit 0 (EmitVal.val 5)] rfl

/-- Counterexample for claim C5: after `set({})` a patch has landed
(`hasPatched` is true and the accumulator holds the — empty — snapshot), yet
`get()` still returns the absent-state sentinel rather than the current
snapshot, because the code tests `Object.keys(state).length`, not whether a
patch ever landed. -/
theorem claim_C5_cex :
    (runSetCalls (freshRx Int) [SetCall.patch []]).hasPatched = true
    ∧ (runSetCalls (freshRx Int) [SetCall.patch []]).state = []
    ∧ rxGet (runSetCalls (freshRx Int) [SetCall.patch []]) = none := by
  exact ⟨rfl, rfl, rfl⟩

/-- Claim C5 (amended): `get()` before any patch returns the absent-state
sentinel; once a patch with at least one field has landed, `get()` returns
the current snapshot; after an empty patch on an empty state it still
returns the sentinel. -/
theorem claim_C5 :
    (∀ V : Type, rxGet (freshRx V) = none)
    ∧ (∀ (V : Type) (st : StateMap V) (hp : Bool) (regs : List (ConnReg V))
        (effs : List (EffectReg V)) (p : StateMap V), p ≠ [] →
        rxGet (nextSlice
          { accFn := mergeRecord, state := st, hasPatched := hp,
            destroyed := false, regs := regs, effects := effs } p)
          = some (mergeRecord st p))
    ∧ (∀ (V : Type) (hp : Bool) (regs : List (ConnReg V)) (effs : List (EffectReg V)),
        rxGet (nextSlice
          { accFn := mergeRecord, state := ([] : StateMap V), hasPatched := hp,
            destroyed := false, regs := regs, effects := effs } ([] : StateMap V))
          = none) := by
  refine ⟨fun V => rfl, ?_, fun V hp regs effs => rfl⟩
  intro V st hp regs effs p hp'
  have hmerge : mergeRecord st p ≠ [] := mergeRecord_ne_nil st p hp'
  have hns : nextSlice
      { accFn := mergeRecord, state := st, hasPatched := hp,
        destroyed := false, regs := regs, effects := effs } p
      = { accFn := mergeRecord, state := mergeRecord st p, hasPatched := true,
          destroyed := false, regs := regs, effects := effs } := rfl
  rw [hns]
  unfold rxGet
  rw [if_neg (by simpa using hmerge)]

/-- Witness for claim C5: a nonempty patch on a fresh container makes `get()`
return the merged snapshot. -/
theorem claim_C5_w :
    rxGet (nextSlice
      { accFn := mergeRecord, state := ([] : StateMap Int), hasPatched := false,
        destroyed := false, regs := [], effects := [] } [("a", 1)])
      = some (mergeRecord [] [("a", 1)]) :=
  claim_C5.2.1 Int [] false [] [] [("a", 1)] (by simp)

/-- Claim C6: an emission `v` of a stream registered via `connect(k, stream)`
is merged as exactly the single-field patch `{k: v}` — afterwards field `k` of
the snapshot equals `v`, every other field is unchanged, and the keyed view
`select(k)` replays `v`. -/
theorem claim_C6 :
    ∀ (V : Type) (st : StateMap V) (regs : List (ConnReg V))
      (effs : List (EffectReg V)) (hp : Bool) (i : Nat) (k : String) (s : SrcTag)
      (v : V),
      regs.get? i = some (ConnReg.keyed k s) →
      getKey (stepEvent
          { accFn := mergeRecord, state := st, hasPatched := hp,
            destroyed := false, regs := regs, effects := effs }
          (RxEvent.emit i (EmitVal.val v))).state k = some v
      ∧ (∀ k' : String, k' ≠ k →
          getKey (stepEvent
            { accFn := mergeRecord, state := st, hasPatched := hp,
              destroyed := false, regs := regs, effects := effs }
            (RxEvent.emit i (EmitVal.val v))).state k' = getKey st k')
      ∧ selectKeyLatest (stepEvent
          { accFn := mergeRecord, state := st, hasPatched := hp,
            destroyed := false, regs := regs, effects := effs }
          (RxEvent.emit i (EmitVal.val v))) k = some v := by
  intro V st regs effs hp i k s v hreg
  have hreg2 : regs[i]? = some (ConnReg.keyed k s) := by
    rw [← List.get?_eq_getElem?]
    exact hreg
  have hstep : stepEvent
      { accFn := mergeRecord, state := st, hasPatched := hp,
        destroyed := false, regs := regs, effects := effs }
      (RxEvent.emit i (EmitVal.val v))
      = { accFn := mergeRecord, state := mergeRecord st (setKey [] k v),
          hasPatched := true, destroyed := false, regs := regs, effects := effs } := by
    simp [stepEvent, hreg2, regPatch, nextSlice]
  rw [hstep]
  have hstate : mergeRecord st (setKey [] k v) = setKey st k v := by
    show mergeRecord st [(k, v)] = setKey st k v
    exact mergeRecord_single st k v
  refine ⟨?_, ?_, ?_⟩
  · show getKey (mergeRecord st (setKey [] k v)) k = some v
    rw [hstate]
    exact getKey_setKey_self st k v
  · intro k' hk'
    show getKey (mergeRecord st (setKey [] k v)) k' = getKey st k'
    rw [hstate]
    exact getKey_setKey_ne st k k' v hk'
  · show selectKeyLatest _ k = some v
    unfold selectKeyLatest
    simp only [if_pos rfl]
    show getKey (mergeRecord st (setKey [] k v)) k = some v
    rw [hstate]
    exact getKey_setKey_self st k v

/-- Witness for claim C6: on state `{b: 7}` with `connect('a', source)`
registered, an emission `5` sets `a` to `5`, leaves `b` at `7`, and the keyed
view replays `5`. -/
theorem claim_C6_w :
    getKey (stepEvent
        { accFn := mergeRecord, state := [("b", (7 : Int))], hasPatched := true,
          destroyed := false, regs := [ConnReg.keyed "a" (SrcTag.ofObs 0)],
          effects := [] }
        (RxEvent.emit 0 (EmitVal.val 5))).state "a" = some 5
    ∧ getKey (stepEvent
        { accFn := mergeRecord, state := [("b", (7 : Int))], hasPatched := true,
          destroyed := false, regs := [ConnReg.keyed "a" (SrcTag.ofObs 0)],
          effects := [] }
        (RxEvent.emit 0 (EmitVal.val 5))).state "b" = some 7 := by
  have h := claim_C6 Int [("b", (7 : Int))] [ConnReg.keyed "a" (SrcTag.ofObs 0)]
    [] true 0 "a" (SrcTag.ofObs 0) 5 rfl
  exact ⟨h.1, (h.2.1 "b" (by simp)).trans rfl⟩

/-- Counterexample for claim C3: `connect(source$, 5)` — an observable first
argument and a truthy non-observable, non-signal, non-function second
argument — matches none of the four valid `connect` shapes, yet the dispatch
does not raise the configuration error: the value is stored as `stateReducer`
without a function check and the call registers a slice observable whose
emissions will throw later. -/
theorem claim_C3_cex :
    validConnectCall (V := Int) (ConnArg1.obs 0) (some ConnArg2.otherTruthy) none
      = false
    ∧ connectDispatch (V := Int) (ConnArg1.obs 0) (some ConnArg2.otherTruthy) none
      = Except.ok (ConnReg.bogusReducer (SrcTag.ofObs 0)) :=
  ⟨rfl, rfl⟩

/-- Claim C3 (amended): a `set` invocation matching none of the valid shapes
raises `'wrong params passed to set'` and leaves the container untouched,
except `set(null)` — `typeof null === 'object'` — which is merged as an empty
patch without error.  A `connect` invocation matching none of the four valid
shapes raises `'wrong params passed to connect'` and leaves the container
untouched, except the coerced shapes: a non-key first argument that is
neither observable nor signal is handed to `toObservable` and registered
(alone, with a reducer function, or with a truthy non-source second
argument), and a truthy non-source non-function second argument is stored as
the reducer and registered without a synchronous error when the first
argument yielded a source and no third argument is given. -/
theorem claim_C3 :
    (∀ (V : Type) (c : RxState V) (a1 : SetArg V) (a2 : Option (SetArg2 V)),
        validSetCall a1 a2 = false → isNullSet a1 a2 = false →
        rxSet c a1 a2 = Except.error "wrong params passed to set")
    ∧ (∀ (V : Type) (c : RxState V) (a1 : ConnArg1 V) (a2 : Option (ConnArg2 V))
        (a3 : Option (ConnArg3 V)),
        validConnectCall a1 a2 a3 = false → connectCoerced a1 a2 a3 = false →
        rxConnect c a1 a2 a3 = Except.error "wrong params passed to connect")
    ∧ (∀ (V : Type) (a1 : ConnArg1 V) (a2 : Option (ConnArg2 V))
        (a3 : Option (ConnArg3 V)),
        connectCoerced a1 a2 a3 = true →
        ∃ r, connectDispatch a1 a2 a3 = Except.ok r)
    ∧ (∀ (V : Type) (st : StateMap V),
        setDispatch st SetArg.null none = Except.ok []) := by
  refine ⟨?_, ?_, ?_, fun V st => rfl⟩
  · intro V c a1 a2 h1 h2
    cases a1 <;> rcases a2 with _ | (f | _) <;>
      simp_all [rxSet, setDispatch, validSetCall, isNullSet]
  · intro V c a1 a2 a3 h1 h2
    rcases a1 with k | s | s | _ <;>
      rcases a2 with _ | (s2 | s2 | r2 | _ | _) <;>
      rcases a3 with _ | (r3 | _) <;>
      simp_all [rxConnect, connectDispatch, validConnectCall, connectCoerced,
        wrapA1, keyOfA1, a2Slices, a2Reducer]
  · intro V a1 a2 a3 h
    rcases a1 with k | s | s | _ <;>
      rcases a2 with _ | (s2 | s2 | r2 | _ | _) <;>
      rcases a3 with _ | (r3 | _) <;>
      simp_all [connectDispatch, connectCoerced, wrapA1, keyOfA1, a2Slices,
        a2Reducer]

/-- Witness for claim C3: `set(undefined)` throws the set configuration
error, `connect('a')` (a key with no source) throws the connect configuration
error, and the coerced shape `connect(junk)` registers. -/
theorem claim_C3_w :
    rxSet (freshRx Int) SetArg.undef none = Except.error "wrong params passed to set"
    ∧ rxConnect (freshRx Int) (ConnArg1.key "a") none none
      = Except.error "wrong params passed to connect"
    ∧ ∃ r, connectDispatch (V := Int) ConnArg1.otherV none none = Except.ok r :=
  ⟨claim_C3.1 Int (freshRx Int) SetArg.undef none rfl rfl,
    claim_C3.2.1 Int (freshRx Int) (ConnArg1.key "a") none none rfl rfl,
    claim_C3.2.2.1 Int ConnArg1.otherV none none rfl⟩
